import Mathlib

/-!
Verification development for the roomLens mapping/transform evaluation core.

The definitions below are a shallow embedding of `src/roomlens/mapping.py`
(the shared mapping module) and, where a claim compares the two, of the
legacy inline mapper in `src/host/python/app.py`.  Python floats are
modelled as rationals (`ℚ`) throughout the frame-evaluation layer; the
transcendental curve factories (`log10_clamp`, `softclip`, `inverse_exp`)
are represented symbolically there, and the `inverse_exp` curve itself is
modelled separately over the reals where its analytic behaviour is at
stake.  Python dictionaries are modelled as insertion-ordered association
lists (first binding wins on lookup, which coincides with Python's unique
keys), and Python exceptions as `Except` results.  The mutable module-level
transform cache `_TRANSFORM_CACHE` is modelled by explicit state passing.
-/

namespace RoomLens

/-! ### Association-list plumbing (Python `dict` access) -/

/-- First-match lookup in an association list; models `d.get(k)`. -/
def lookup_str {α : Type} : List (String × α) → String → Option α
  | [], _ => none
  | (k, v) :: rest, key => if k = key then some v else lookup_str rest key

/-- Models Python `k in d`. -/
def has_key {α : Type} (l : List (String × α)) (k : String) : Bool :=
  (lookup_str l k).isSome

/-- Models `d[k] = v` on a dict: overwrite in place if present, else append. -/
def set_key {α : Type} : List (String × α) → String → α → List (String × α)
  | [], key, v => [(key, v)]
  | (k, w) :: rest, key, v =>
    if k = key then (k, v) :: rest else (k, w) :: set_key rest key v

/-- The keys of an association list. -/
def keys_of {α : Type} (l : List (String × α)) : List String := l.map Prod.fst

/-! ### Basic math helpers (mapping.py lines 27-40) -/

/-- `clamp01` from mapping.py: clamp `x` into the inclusive `[0, 1]` range. -/
def clamp01 (x : ℚ) : ℚ :=
  if x < 0 then 0 else if x > 1 then 1 else x

/-- `lerp` from mapping.py: linear interpolation `a + (b - a) * t`. -/
def lerp (a b t : ℚ) : ℚ := a + (b - a) * t

/-! ### The configuration data model

A mapping document is a YAML-derived nested dict.  The fields the code
reads are modelled as typed options; dict iteration order is the list
order.  A feature's `transform` field can hold nothing, a string spec,
a callable, or (erroneously) some other value — modelled by
`TransformField`, with an integer standing in for the "neither falsy nor
callable nor string" values that `_resolve_transform` rejects. -/

/-- A parsed literal argument of a transform spec (numbers and lists of
literals; the subset of Python literals the registered factories consume). -/
inductive Lit where
  | num (q : ℚ)
  | list (xs : List Lit)
deriving Repr

/-- The `source` field of a feature: a string (split on `|`) or a list of
candidate keys (non-string list elements are skipped by the code, hence
behave exactly like omitted entries and are not modelled). -/
inductive SourceField where
  | str (s : String)
  | list (xs : List String)

/-- Symbolic form of a factory-built transform: the constructor arguments
after the normalisation each factory performs at construction time
(mapping.py lines 47-106). -/
inductive BuiltTF where
  | log10Clamp (floorDb : ℚ)
  | softclipT (threshold slope : ℚ)
  | inverseExpT (centers : List ℚ) (k : ℚ)

/-- A resolved transform function: identity, `clamp01`, a user-supplied
callable, or a symbolically represented factory-built curve. -/
inductive TransformFn where
  | identityT
  | clamp01T
  | callable (f : ℚ → ℚ)
  | built (b : BuiltTF)

/-- The value held by a feature's `transform` field. -/
inductive TransformField where
  | absent
  | str (s : String)
  | callable (f : ℚ → ℚ)
  | intVal (n : ℤ)

/-- Python truthiness of a `transform` field value (`if not transform_spec`). -/
def transform_truthy : TransformField → Bool
  | .absent => false
  | .str s => s ≠ ""
  | .callable _ => true
  | .intVal n => n ≠ 0

/-- Python `type(x).__name__` for the modelled transform-field values. -/
def transform_type_name : TransformField → String
  | .absent => "NoneType"
  | .str _ => "str"
  | .callable _ => "function"
  | .intVal _ => "int"

/-- The `map_to` sub-dict of a feature. -/
structure MapTo where
  axis : Option String := none
  range : Option (List ℚ) := none

/-- One feature block of a sensor. -/
structure FeatureCfg where
  frame_key : Option String := none
  source : Option SourceField := none
  transform : TransformField := .absent
  map_to : Option MapTo := none

/-- One sensor block: the `enabled` flag (absent modelled as `none`) and the
ordered feature dict. -/
structure SensorCfg where
  enabled : Option Bool := none
  features : List (String × FeatureCfg) := []

/-- The whole mapping document (the `sensors` top-level key; the optional
`axes` documentation block is never read by evaluation and is omitted). -/
structure MappingCfg where
  sensors : List (String × SensorCfg) := []

/-- An incoming frame: flat string-keyed numeric record. -/
abbrev Frame := List (String × ℚ)

/-- The axis-value output of one evaluation pass. -/
abbrev AxisMap := List (String × ℚ)

/-! ### Frame-value resolution (mapping.py lines 216-278) -/

/-- `_DEFAULT_RESOLVERS` from mapping.py: the built-in per-(sensor, feature)
frame readers, including their fallback chains. -/
def default_resolvers (sn fn : String) : Option (Frame → ℚ) :=
  match sn, fn with
  | "mic", "rms" => some fun f => (lookup_str f "mic_rms").getD 0
  | "mic", "spectral_centroid" =>
    some fun f => (lookup_str f "mic_sc").getD ((lookup_str f "mic_centroid").getD 0)
  | "mic", "hf_rolloff" =>
    some fun f =>
      (lookup_str f "mic_hf").getD ((lookup_str f "hf").getD ((lookup_str f "mic_sc").getD 0))
  | "tof", "motion_energy" => some fun f => (lookup_str f "tof_motion").getD 0
  | "tof", "proximity" => some fun f => (lookup_str f "tof_near").getD 0
  | "light", "lux" => some fun f => (lookup_str f "lux").getD 0
  | "light", "flicker_hz" => some fun f => (lookup_str f "flicker").getD 0
  | "motion", "burst" =>
    some fun f =>
      match lookup_str f "motion" with
      | none => 0
      | some v => if v = 0 then 0 else 1
  | "climate", "drift" => some fun f => (lookup_str f "climate_drift").getD 0
  | "presence", "count" =>
    some fun f => (lookup_str f "presence_count").getD ((lookup_str f "count").getD 0)
  | _, _ => none

/-- Strip leading and trailing whitespace from a character list
(Python `str.strip()`). -/
def strip_chars (cs : List Char) : List Char :=
  ((cs.dropWhile Char.isWhitespace).reverse.dropWhile Char.isWhitespace).reverse

/-- Python `str.strip()`. -/
def py_strip (s : String) : String := String.mk (strip_chars s.data)

/-- Python `str.split("|")` over the character list (structural so that it
evaluates by kernel reduction). -/
def split_pipe : List Char → List Char → List String
  | [], cur => [String.mk cur.reverse]
  | c :: rest, cur =>
    if c = '|' then String.mk cur.reverse :: split_pipe rest []
    else split_pipe rest (c :: cur)

/-- Candidate keys derived from a string `source` (mapping.py lines 259-261):
split on `|`, strip each part, drop empties; if nothing remains, the raw
source string itself is the sole candidate. -/
def source_candidates (s : String) : List String :=
  let parts := ((split_pipe s.data []).map py_strip).filter (fun p => p ≠ "")
  if parts = [] then [s] else parts

/-- First candidate key present in the frame, with its value
(mapping.py lines 262-268: `if candidate in frame: return ...`). -/
def first_present : List String → Frame → Option ℚ
  | [], _ => none
  | c :: rest, f =>
    if has_key f c then some ((lookup_str f c).getD 0) else first_present rest f

/-- `_resolve_feature_value` from mapping.py lines 242-278.  The nested
`let`s mirror the chain of early returns: `frame_key` override, then the
`source` candidates, then the built-in resolver, then the
`{sensor}_{feature}` compound key, then the bare feature key, else `0.0`. -/
def resolve_feature_value (sn fn : String) (fc : FeatureCfg) (frame : Frame) : ℚ :=
  let after_source : ℚ :=
    match default_resolvers sn fn with
    | some r => r frame
    | none =>
      let compound := sn ++ "_" ++ fn
      if has_key frame compound then (lookup_str frame compound).getD 0
      else (lookup_str frame fn).getD 0
  let after_frame_key : ℚ :=
    match fc.source with
    | some (.str s) =>
      if s = "" then after_source
      else
        match first_present (source_candidates s) frame with
        | some v => v
        | none => after_source
    | some (.list xs) =>
      match first_present xs frame with
      | some v => v
      | none => after_source
    | none => after_source
  match fc.frame_key with
  | some k => if k = "" then after_frame_key else (lookup_str frame k).getD 0
  | none => after_frame_key

/-! ### Claim-side rendering of C3's resolution chain

These definitions follow the wording of claim C3 (spec section 4.3 step 1):
the strict priority order (a) `frame_key`, (b) `source` candidates,
(c) built-in resolver, (d) compound key, (e) bare key, (f) `0.0`. -/

/-- Truthiness of an optional string field (`if frame_key:`). -/
def str_opt_truthy : Option String → Bool
  | none => false
  | some s => s ≠ ""

/-- Claim C3 step (b): the value delivered by the `source` field, if any. -/
def claim_source_hit (src : Option SourceField) (frame : Frame) : Option ℚ :=
  match src with
  | some (.str s) => if s = "" then none else first_present (source_candidates s) frame
  | some (.list xs) => first_present xs frame
  | none => none

/-- Claim C3 steps (c)-(f): built-in resolver, else compound key, else bare
feature key, else `0.0`. -/
def claim_builtin_chain (sn fn : String) (frame : Frame) : ℚ :=
  match default_resolvers sn fn with
  | some r => r frame
  | none =>
    if has_key frame (sn ++ "_" ++ fn) then (lookup_str frame (sn ++ "_" ++ fn)).getD 0
    else (lookup_str frame fn).getD 0

/-- The full resolution chain exactly as claim C3 words it. -/
def resolve_value_claim (sn fn : String) (fc : FeatureCfg) (frame : Frame) : ℚ :=
  if str_opt_truthy fc.frame_key then (lookup_str frame (fc.frame_key.getD "")).getD 0
  else
    match claim_source_hit fc.source frame with
    | some v => v
    | none => claim_builtin_chain sn fn frame

/-! ### Transform-spec parsing (mapping.py lines 120-141)

The source parses a `transform` string with Python's `ast` module and
accepts exactly a bare identifier or an identifier applied to literal
positional/keyword arguments, raising `ValueError` otherwise.  The parser
below implements that grammar over character lists, with literals limited
to (possibly negative, possibly decimal) numbers and nested lists — the
subset the registered factories consume.  All `ValueError`s raised while
parsing a spec (empty spec, syntax error, unsupported expression shape,
malformed literal) are collapsed into the `badSpec` error. -/

/-- The exceptions `_resolve_transform` and `_parse_transform_spec` raise. -/
inductive TErr where
  | emptySpec
  | badSpec (spec : String)
  | typeNotStrOrCallable (tyName : String)
  | unknownTransform (name : String) (cfg : FeatureCfg)
  | constructionError (name : String)

/-- Identifier characters after the first (letters, digits, underscore). -/
def is_ident_char (c : Char) : Bool := c.isAlphanum || c = '_'

/-- Take a Python identifier off the front of the character list. -/
def take_ident : List Char → Option (String × List Char)
  | [] => none
  | c :: cs =>
    if c.isAlpha || c = '_' then
      some (String.mk (c :: cs.takeWhile is_ident_char), cs.dropWhile is_ident_char)
    else none

/-- Digit run → natural number. -/
def digits_to_nat (ds : List Char) : Nat :=
  ds.foldl (fun n c => 10 * n + (c.toNat - '0'.toNat)) 0

/-- Take a numeric literal (optional minus sign, digits, optional fractional
part) off the front of the character list.  Exponent forms and underscore
separators are not modelled. -/
def take_number (cs : List Char) : Option (ℚ × List Char) :=
  let (neg, cs1) :=
    match cs with
    | '-' :: t => (true, t)
    | _ => (false, cs)
  let ds := cs1.takeWhile Char.isDigit
  let cs2 := cs1.dropWhile Char.isDigit
  if ds = [] then none
  else
    let intPart : ℚ := (digits_to_nat ds : ℚ)
    let (val, cs3) :=
      match cs2 with
      | '.' :: t =>
        let fs := t.takeWhile Char.isDigit
        (intPart + (digits_to_nat fs : ℚ) / (10 : ℚ) ^ fs.length, t.dropWhile Char.isDigit)
      | _ => (intPart, cs2)
    some (if neg then -val else val, cs3)

mutual

/-- Take one literal (number or list) off the front; `fuel` bounds the
recursion depth by the input length. -/
def take_lit : Nat → List Char → Option (Lit × List Char)
  | 0, _ => none
  | fuel + 1, cs =>
    let cs := cs.dropWhile Char.isWhitespace
    match cs with
    | '[' :: t => take_lit_items fuel t []
    | _ =>
      match take_number cs with
      | some (q, r) => some (Lit.num q, r)
      | none => none

/-- Take the items of a list literal up to the closing bracket. -/
def take_lit_items : Nat → List Char → List Lit → Option (Lit × List Char)
  | 0, _, _ => none
  | fuel + 1, cs, acc =>
    let cs := cs.dropWhile Char.isWhitespace
    match cs with
    | ']' :: t => some (Lit.list acc.reverse, t)
    | _ =>
      match take_lit fuel cs with
      | none => none
      | some (l, r) =>
        let r := r.dropWhile Char.isWhitespace
        match r with
        | ',' :: t => take_lit_items fuel t (l :: acc)
        | ']' :: t => some (Lit.list (l :: acc).reverse, t)
        | _ => none

end

/-- Parse the call arguments up to the closing parenthesis: positional
literals, then `keyword=literal` pairs (a positional after a keyword is a
Python syntax error). -/
def take_args : Nat → List Char → List Lit → List (String × Lit) →
    Option (List Lit × List (String × Lit) × List Char)
  | 0, _, _, _ => none
  | fuel + 1, cs, pos, kws =>
    let cs := cs.dropWhile Char.isWhitespace
    match cs with
    | ')' :: t => some (pos.reverse, kws.reverse, t)
    | _ =>
      let kwArm : Option (String × List Char) :=
        match take_ident cs with
        | some (name, r) =>
          match r.dropWhile Char.isWhitespace with
          | '=' :: t => some (name, t)
          | _ => none
        | none => none
      match kwArm with
      | some (name, t) =>
        (match take_lit fuel t with
         | none => none
         | some (l, r) =>
           match r.dropWhile Char.isWhitespace with
           | ',' :: t2 => take_args fuel t2 pos ((name, l) :: kws)
           | ')' :: t2 => some (pos.reverse, ((name, l) :: kws).reverse, t2)
           | _ => none)
      | none =>
        match kws with
        | _ :: _ => none
        | [] =>
          match take_lit fuel cs with
          | none => none
          | some (l, r) =>
            match r.dropWhile Char.isWhitespace with
            | ',' :: t2 => take_args fuel t2 (l :: pos) kws
            | ')' :: t2 => some ((l :: pos).reverse, kws.reverse, t2)
            | _ => none

/-- Is there a duplicated name in the list (duplicate keyword arguments are
a Python syntax error)? -/
def has_dup : List String → Bool
  | [] => false
  | x :: xs => xs.contains x || has_dup xs

/-- `_parse_transform_spec` from mapping.py lines 120-141: strip the spec,
reject the empty spec, then accept a bare identifier or an identifier
applied to parenthesised literal arguments. -/
def parse_transform_spec (spec : String) :
    Except TErr (String × List Lit × List (String × Lit)) :=
  let cs := strip_chars spec.data
  if cs = [] then .error .emptySpec
  else
    match take_ident cs with
    | none => .error (.badSpec spec)
    | some (name, rest) =>
      match rest.dropWhile Char.isWhitespace with
      | [] => .ok (name, [], [])
      | '(' :: t =>
        match take_args (t.length + 1) t [] [] with
        | none => .error (.badSpec spec)
        | some (pos, kws, after) =>
          if after.dropWhile Char.isWhitespace = [] then
            if has_dup (kws.map Prod.fst) then .error (.badSpec spec)
            else .ok (name, pos, kws)
          else .error (.badSpec spec)
      | _ => .error (.badSpec spec)

/-! ### The factory registry (mapping.py lines 47-115)

`_TRANSFORM_FACTORIES` maps a name to a factory; calling a factory with the
parsed arguments either yields a transform or raises `TypeError` (wrapped
by `_resolve_transform` lines 166-171).  `apply_factory` returns `none`
for an unregistered name, `some (.error ...)` for a construction failure
under Python's keyword-binding rules for each factory's signature, and
`some (.ok ...)` with the normalised symbolic transform otherwise. -/

/-- The keys of `_TRANSFORM_FACTORIES`. -/
def registry_names : List String :=
  ["log10_clamp", "inverse_exp", "softclip", "identity", "clamp01"]

/-- A literal coerced by `float(...)`: numbers succeed, lists raise
`TypeError`. -/
def lit_num : Lit → Option ℚ
  | .num q => some q
  | .list _ => none

/-- All keyword names drawn from the allowed set? (an unexpected keyword is
a `TypeError`). -/
def kws_allowed (kwargs : List (String × Lit)) (allowed : List String) : Bool :=
  kwargs.all fun p => allowed.contains p.1

/-- Fetch a numeric keyword with a default; `none` models a `TypeError`
from coercing a non-number. -/
def get_num_kw (kwargs : List (String × Lit)) (key : String) (dflt : ℚ) : Option ℚ :=
  match lookup_str kwargs key with
  | none => some dflt
  | some l => lit_num l

/-- Coerce every element of a list literal with `float(...)`. -/
def all_nums : List Lit → Option (List ℚ)
  | [] => some []
  | l :: rest =>
    match lit_num l, all_nums rest with
    | some q, some qs => some (q :: qs)
    | _, _ => none

/-- Call the factory registered under `name` with the parsed arguments.
Each arm implements the corresponding factory's Python signature and the
argument normalisation it performs (mapping.py lines 47-115). -/
def apply_factory (name : String) (args : List Lit) (kwargs : List (String × Lit)) :
    Option (Except TErr TransformFn) :=
  match name with
  | "identity" =>
    some (match args, kwargs with
      | [], [] => .ok .identityT
      | _, _ => .error (.constructionError name))
  | "clamp01" =>
    some (match args, kwargs with
      | [], [] => .ok .clamp01T
      | _, _ => .error (.constructionError name))
  | "log10_clamp" =>
    some (match args with
      | _ :: _ => .error (.constructionError name)
      | [] =>
        if kws_allowed kwargs ["floor_db"] = false then .error (.constructionError name)
        else
          match get_num_kw kwargs "floor_db" (-60) with
          | some fd => .ok (.built (.log10Clamp fd))
          | none => .error (.constructionError name))
  | "softclip" =>
    some (match args with
      | _ :: _ :: _ => .error (.constructionError name)
      | [a] =>
        if has_key kwargs "threshold" then .error (.constructionError name)
        else if kws_allowed kwargs ["slope"] = false then .error (.constructionError name)
        else
          match lit_num a, get_num_kw kwargs "slope" 4 with
          | some th, some sl => .ok (.built (.softclipT (clamp01 th) (max sl 1)))
          | _, _ => .error (.constructionError name)
      | [] =>
        if kws_allowed kwargs ["threshold", "slope"] = false then
          .error (.constructionError name)
        else
          match get_num_kw kwargs "threshold" 0.8, get_num_kw kwargs "slope" 4 with
          | some th, some sl => .ok (.built (.softclipT (clamp01 th) (max sl 1)))
          | _, _ => .error (.constructionError name))
  | "inverse_exp" =>
    some (match args with
      | _ :: _ => .error (.constructionError name)
      | [] =>
        if kws_allowed kwargs ["centers", "k"] = false then .error (.constructionError name)
        else
          match lookup_str kwargs "centers" with
          | none => .error (.constructionError name)
          | some (.num _) => .error (.constructionError name)
          | some (.list xs) =>
            match all_nums xs, get_num_kw kwargs "k" 1 with
            | some cs, some k =>
              let cs1 := match cs with
                | [] => []
                | _ => cs.filter fun c => 0 < c
              let cs2 := if cs1 = [] then [(1 : ℚ)] else cs1
              let k1 := if k ≤ 0 then 1 else k
              .ok (.built (.inverseExpT cs2 k1))
            | _, _ => .error (.constructionError name))
  | _ => none

/-! ### Transform resolution and the cache (mapping.py lines 117, 144-173) -/

/-- The module-level `_TRANSFORM_CACHE`, keyed by the literal spec string. -/
abbrev Cache := List (String × TransformFn)

/-- `_resolve_transform` from mapping.py lines 144-173, with the mutable
global cache threaded explicitly: falsy field → identity; callable →
returned as-is; non-string non-callable → `TypeError`; string → cache
lookup, else parse, registry lookup (unknown name → `ValueError` naming
the feature config), factory call, and a cache write on success.  The
returned cache is unchanged on every failure path, because the source
stores into the cache only after the factory call succeeded (line 172). -/
def resolve_transform (fc : FeatureCfg) (c : Cache) : Except TErr TransformFn × Cache :=
  if transform_truthy fc.transform = false then (.ok .identityT, c)
  else
    match fc.transform with
    | .callable f => (.ok (.callable f), c)
    | .str s =>
      (match lookup_str c s with
       | some cached => (.ok cached, c)
       | none =>
         match parse_transform_spec s with
         | .error e => (.error e, c)
         | .ok (name, args, kwargs) =>
           match apply_factory name args kwargs with
           | none => (.error (.unknownTransform name fc), c)
           | some (.error e) => (.error e, c)
           | some (.ok tf) => (.ok tf, (s, tf) :: c))
    | other => (.error (.typeNotStrOrCallable (transform_type_name other)), c)

/-- Pointwise meaning of a resolved transform.  The factory-built curves
involve transcendental functions, so their numeric semantics is supplied
as the parameter `sem`; no claim about the evaluation pass depends on the
values `sem` produces, and the analytic behaviour of `inverse_exp` is
modelled over the reals separately below. -/
def eval_transform (sem : BuiltTF → ℚ → ℚ) : TransformFn → ℚ → ℚ
  | .identityT, x => x
  | .clamp01T, x => clamp01 x
  | .callable f, x => f x
  | .built b, x => sem b x

/-! ### Lexicographic string order (Python `sorted` / `<` on `str`)

Python compares strings lexicographically by code point.  Core's
`String.lt` is decidable but does not kernel-reduce, so the order is
re-implemented structurally over the character lists. -/

/-- Strict lexicographic order on character lists by code point. -/
def lex_lt : List Char → List Char → Bool
  | [], [] => false
  | [], _ :: _ => true
  | _ :: _, [] => false
  | a :: as, b :: bs => if a < b then true else if b < a then false else lex_lt as bs

/-- Reflexive lexicographic order on character lists. -/
def lex_le : List Char → List Char → Bool
  | [], _ => true
  | _ :: _, [] => false
  | a :: as, b :: bs => if a < b then true else if b < a then false else lex_le as bs

/-- Python `s1 <= s2` on strings. -/
def str_le (a b : String) : Bool := lex_le a.data b.data

/-- Python `s1 < s2` on strings. -/
def str_lt (a b : String) : Bool := lex_lt a.data b.data

/-- Python `sorted` on a list of strings (ascending, stable; the relation
is a total preorder so the multiset of results is what Python produces). -/
def sorted_strings (l : List String) : List String :=
  l.insertionSort fun a b => str_le a b = true

/-! ### Validation (mapping.py lines 194-210) -/

/-- Is the feature's `map_to.axis` truthy (`feature_cfg.get("map_to",
{}).get("axis")`)?  A missing `map_to`, a missing `axis`, and an empty
axis string are all falsy. -/
def axis_truthy (fc : FeatureCfg) : Bool :=
  match fc.map_to with
  | none => false
  | some mt =>
    match mt.axis with
    | none => false
    | some a => a ≠ ""

/-- The `missing` list accumulated by `validate_mapping_axes`, in
iteration order: one `"sensor.feature"` entry per axis-less feature. -/
def missing_entries (m : MappingCfg) : List String :=
  (m.sensors.map fun p =>
    p.2.features.filterMap fun q =>
      if axis_truthy q.2 then none else some (p.1 ++ "." ++ q.1)).flatten

/-- `validate_mapping_axes` from mapping.py lines 194-210 (and its
line-for-line twin in app.py lines 121-140): collect every feature whose
`map_to.axis` is falsy — for every sensor, with no look at `enabled` —
and raise a single `ValueError` listing them sorted, else return. -/
def validate_mapping_axes (m : MappingCfg) : Except String Unit :=
  let missing := missing_entries m
  if missing = [] then .ok ()
  else .error ("Mapping entries missing map_to.axis: " ++
    String.intercalate ", " (sorted_strings missing))

/-! ### Claim-side rendering of C1's error ordering

Claim C1 says the offending pairs are "sorted lexicographically by sensor
then feature name"; the definitions below render that wording: collect the
(sensor, feature) pairs, sort them by the pair order (sensor first, then
feature), and only then join each pair with a dot. -/

/-- The offending (sensor, feature) pairs in iteration order. -/
def missing_pairs (m : MappingCfg) : List (String × String) :=
  (m.sensors.map fun p =>
    p.2.features.filterMap fun q =>
      if axis_truthy q.2 then none else some (p.1, q.1)).flatten

/-- Lexicographic order on (sensor, feature) pairs: sensor first, then
feature — Python's tuple comparison. -/
def pair_le (a b : String × String) : Bool :=
  str_lt a.1 b.1 || (a.1 = b.1 && str_le a.2 b.2)

/-- The error message claim C1 describes: every offending pair, sorted by
sensor then feature, joined as `sensor.feature`. -/
def claim_error_message (m : MappingCfg) : String :=
  "Mapping entries missing map_to.axis: " ++
    String.intercalate ", "
      (((missing_pairs m).insertionSort fun a b => pair_le a b = true).map
        fun p => p.1 ++ "." ++ p.2)

/-! ### The evaluation pass (mapping.py lines 281-359)

`apply_mapping` is modelled at its `processors=None` instantiation: the
source builds a processor table mapping every known sensor name to
`_process_generic_sensor` and falls back to `_process_generic_sensor` for
unknown names as well, so with no caller-supplied overrides every sensor
block is processed by the generic per-feature loop. -/

/-- `(lo, hi)` from `map_to.get("range", [0.0, 1.0])` with the defensive
two-element check (mapping.py lines 297-302). -/
def range_of (mt : MapTo) : ℚ × ℚ :=
  match mt.range with
  | some [lo, hi] => (lo, hi)
  | _ => (0, 1)

/-- `_apply_single_feature` from mapping.py lines 281-303: missing or empty
axis → silently do nothing; else resolve the raw value, resolve the
transform (possibly raising), clamp, interpolate, and write the axis. -/
def apply_single_feature (sem : BuiltTF → ℚ → ℚ) (sn fn : String) (fc : FeatureCfg)
    (frame : Frame) (axes : AxisMap) (c : Cache) : Except TErr AxisMap × Cache :=
  let mt := fc.map_to.getD {}
  match mt.axis with
  | none => (.ok axes, c)
  | some a =>
    if a = "" then (.ok axes, c)
    else
      let raw := resolve_feature_value sn fn fc frame
      match resolve_transform fc c with
      | (.error e, c1) => (.error e, c1)
      | (.ok tf, c1) =>
        let t := clamp01 (eval_transform sem tf raw)
        let lohi := range_of mt
        (.ok (set_key axes a (lerp lohi.1 lohi.2 t)), c1)

/-- The feature loop of `_process_generic_sensor` (mapping.py lines
353-359; the `dict(feature_cfg)` copy has no observable effect in a pure
model). -/
def process_features (sem : BuiltTF → ℚ → ℚ) (sn : String) (frame : Frame) :
    List (String × FeatureCfg) → AxisMap → Cache → Except TErr AxisMap × Cache
  | [], axes, c => (.ok axes, c)
  | (fn, fc) :: rest, axes, c =>
    match apply_single_feature sem sn fn fc frame axes c with
    | (.error e, c1) => (.error e, c1)
    | (.ok axes1, c1) => process_features sem sn frame rest axes1 c1

/-- `_process_generic_sensor` from mapping.py lines 353-359. -/
def process_generic_sensor (sem : BuiltTF → ℚ → ℚ) (sn : String) (frame : Frame)
    (sc : SensorCfg) (axes : AxisMap) (c : Cache) : Except TErr AxisMap × Cache :=
  process_features sem sn frame sc.features axes c

/-- The sensor loop of `apply_mapping` (mapping.py lines 344-348): skip a
block whose `enabled` is falsy (absent defaults to `False` for every
sensor name), else run the generic processor. -/
def process_sensors (sem : BuiltTF → ℚ → ℚ) (frame : Frame) :
    List (String × SensorCfg) → AxisMap → Cache → Except TErr AxisMap × Cache
  | [], axes, c => (.ok axes, c)
  | (sn, sc) :: rest, axes, c =>
    if sc.enabled.getD false = false then process_sensors sem frame rest axes c
    else
      match process_generic_sensor sem sn frame sc axes c with
      | (.error e, c1) => (.error e, c1)
      | (.ok axes1, c1) => process_sensors sem frame rest axes1 c1

/-- `apply_mapping` from mapping.py lines 309-350 at `processors=None`. -/
def apply_mapping (sem : BuiltTF → ℚ → ℚ) (frame : Frame) (m : MappingCfg)
    (c : Cache) : Except TErr AxisMap × Cache :=
  process_sensors sem frame m.sensors [] c

/-! ### The legacy inline mapper (app.py lines 142-253)

`host/python/app.py` carries its own hard-coded `apply_mapping`.  It is
modelled here because claim C5 cites it: its `motion` block is gated on
`motion.get("enabled", True)` — default **true** — unlike the shared
module, which defaults every sensor's `enabled` to false.  Its per-feature
body reads `map_to["range"]` without a default, so a missing or
non-two-element range is a raised `KeyError`/unpack error, modelled as
`Except.error`. -/

/-- One hard-coded feature write of app.py: if the feature is declared,
read `map_to`; a truthy axis writes `lerp(lo, hi, t)` with `lo, hi =
map_to["range"]` (raising when the range is not a two-element list). -/
def app_feature (sc : SensorCfg) (fname : String) (t : ℚ) (axes : AxisMap) :
    Except String AxisMap :=
  match lookup_str sc.features fname with
  | none => .ok axes
  | some fc =>
    let mt := fc.map_to.getD {}
    match mt.axis with
    | none => .ok axes
    | some a =>
      if a = "" then .ok axes
      else
        match mt.range with
        | some [lo, hi] => .ok (set_key axes a (lerp lo hi t))
        | _ => .error "range lookup/unpack failed"

/-- `apply_mapping` from app.py lines 142-253: hard-coded mic, tof, light
and motion blocks, each gated on its `enabled` flag — `False` default for
mic/tof/light, `True` default for motion. -/
def app_apply_mapping (frame : Frame) (m : MappingCfg) : Except String AxisMap := do
  let s := m.sensors
  let axes : AxisMap := []
  let mic := (lookup_str s "mic").getD {}
  let axes ← (if mic.enabled.getD false then do
      let axes ← app_feature mic "rms" (clamp01 ((lookup_str frame "mic_rms").getD 0)) axes
      let axes ← app_feature mic "spectral_centroid"
        (clamp01 ((lookup_str frame "mic_sc").getD 0)) axes
      app_feature mic "hf_rolloff"
        (clamp01 ((lookup_str frame "hf").getD ((lookup_str frame "mic_sc").getD 0))) axes
    else pure axes)
  let tof := (lookup_str s "tof").getD {}
  let axes ← (if tof.enabled.getD false then do
      let axes ← app_feature tof "motion_energy"
        (clamp01 ((lookup_str frame "tof_motion").getD 0)) axes
      app_feature tof "proximity" (clamp01 ((lookup_str frame "tof_near").getD 0)) axes
    else pure axes)
  let light := (lookup_str s "light").getD {}
  let axes ← (if light.enabled.getD false then do
      let axes ← app_feature light "lux" (clamp01 ((lookup_str frame "lux").getD 0)) axes
      app_feature light "flicker_hz" (clamp01 ((lookup_str frame "flicker").getD 0)) axes
    else pure axes)
  let motion := (lookup_str s "motion").getD {}
  let axes ← (if motion.enabled.getD true then
      app_feature motion "burst"
        (if ((lookup_str frame "motion").getD 0) = 0 then 0 else 1) axes
    else pure axes)
  pure axes

/-! ### The `inverse_exp` curve over the reals (mapping.py lines 80-106)

The analytic claims about `inverse_exp` (claim C7) concern the actual
exponential curve, so the factory body is modelled once more over `ℝ`
with `Real.exp`. -/

/-- `clamp01` over the reals (mapping.py lines 27-34). -/
noncomputable def clamp01R (x : ℝ) : ℝ :=
  if x < 0 then 0 else if x > 1 then 1 else x

/-- `inverse_exp` from mapping.py lines 80-106: keep the positive centers
(an empty or all-non-positive list becomes `[1.0]`), floor `k` at `1.0`
when non-positive, then average the per-center scores — `0` at or beyond
a center, `1 - exp(-k * (center - x) / center)` below it — and clamp the
mean into `[0, 1]`. -/
noncomputable def inverse_exp (centers : List ℝ) (k : ℝ) : ℝ → ℝ :=
  let cs0 : List ℝ :=
    match centers with
    | [] => []
    | _ => centers.filter fun c => 0 < c
  let cs : List ℝ := if cs0 = [] then [1] else cs0
  let k1 : ℝ := if k ≤ 0 then 1 else k
  fun x =>
    let scores := cs.map fun c => if x ≥ c then 0 else 1 - Real.exp (-k1 * ((c - x) / c))
    clamp01R (scores.sum / (scores.length : ℝ))

/-! ### Concrete fixtures used by the claim theorems -/

/-- A microphone RMS feature mapped to axis `demo` over `[0, 1]` with no
transform (the end-to-end fixture of claim C2). -/
def demo_rms_feature : FeatureCfg :=
  { map_to := some { axis := some "demo", range := some [0, 1] } }

/-- A mapping declaring exactly the `demo_rms_feature` on an enabled mic. -/
def mic_demo_mapping : MappingCfg :=
  { sensors := [("mic", { enabled := some true, features := [("rms", demo_rms_feature)] })] }

/-- A feature whose transform names the unregistered `nope` (claim C4). -/
def nope_feature : FeatureCfg :=
  { transform := .str "nope", map_to := some { axis := some "demo", range := some [0, 1] } }

/-- A mapping declaring the `nope_feature` on an enabled mic. -/
def nope_mapping : MappingCfg :=
  { sensors := [("mic", { enabled := some true, features := [("rms", nope_feature)] })] }

/-- A motion block with no `enabled` key (claim C5's failing input). -/
def motion_default_mapping : MappingCfg :=
  { sensors := [("motion",
      { features := [("burst",
          { map_to := some { axis := some "env_attack_ms", range := some [0, 1] } })] })] }

/-- Two axis-less features on sensors `ab` and `ab-c`: the joined-string
sort and the sensor-then-feature sort disagree here, because `-` orders
before `.` (claim C1's counterexample input). -/
def hyphen_mapping : MappingCfg :=
  { sensors := [("ab", { features := [("f", {})] }),
                ("ab-c", { features := [("g", {})] })] }

/-! ### Order lemmas for the sorting relation -/

theorem lex_le_total : ∀ as bs : List Char, lex_le as bs = true ∨ lex_le bs as = true
  | [], _ => Or.inl rfl
  | _ :: _, [] => Or.inr rfl
  | a :: as, b :: bs => by
    rcases lt_trichotomy a b with h | h | h
    · left; simp [lex_le, h]
    · subst h
      rcases lex_le_total as bs with ih | ih
      · left; simp [lex_le, lt_irrefl, ih]
      · right; simp [lex_le, lt_irrefl, ih]
    · right; simp [lex_le, h]

theorem lex_le_trans : ∀ as bs cs : List Char,
    lex_le as bs = true → lex_le bs cs = true → lex_le as cs = true
  | [], _, _, _, _ => rfl
  | _ :: _, [], _, h, _ => by simp [lex_le] at h
  | _ :: _, _ :: _, [], _, h2 => by simp [lex_le] at h2
  | a :: as, b :: bs, c :: cs, h1, h2 => by
    simp only [lex_le] at h1 h2 ⊢
    by_cases hab : a < b
    · by_cases hbc : b < c
      · simp [lt_trans hab hbc]
      · by_cases hcb : c < b
        · simp [hbc, hcb] at h2
        · have hb : b = c := le_antisymm (not_lt.mp hcb) (not_lt.mp hbc)
          subst hb; simp [hab]
    · by_cases hba : b < a
      · simp [hab, hba] at h1
      · have ha : a = b := le_antisymm (not_lt.mp hba) (not_lt.mp hab)
        subst ha
        simp only [lt_irrefl, if_false] at h1
        by_cases hac : a < c
        · simp [hac]
        · by_cases hca : c < a
          · simp [hac, hca] at h2
          · have hc : a = c := le_antisymm (not_lt.mp hca) (not_lt.mp hac)
            subst hc
            simp only [lt_irrefl, if_false] at h2 ⊢
            exact lex_le_trans as bs cs h1 h2

instance : IsTotal String fun a b => str_le a b = true :=
  ⟨fun a b => lex_le_total a.data b.data⟩

instance : IsTrans String fun a b => str_le a b = true :=
  ⟨fun a b c => lex_le_trans a.data b.data c.data⟩

/-! ### Characterising the validator's missing list -/

theorem mem_missing_entries (m : MappingCfg) (p : String) :
    p ∈ missing_entries m ↔
      ∃ sn sc fn fc, (sn, sc) ∈ m.sensors ∧ (fn, fc) ∈ sc.features ∧
        axis_truthy fc = false ∧ p = sn ++ "." ++ fn := by
  unfold missing_entries
  rw [List.mem_flatten]
  constructor
  · rintro ⟨l, hl, hp⟩
    rw [List.mem_map] at hl
    obtain ⟨⟨sn, sc⟩, hsc, rfl⟩ := hl
    rw [List.mem_filterMap] at hp
    obtain ⟨⟨fn, fc⟩, hfc, hif⟩ := hp
    by_cases hax : axis_truthy fc
    · simp [hax] at hif
    · refine ⟨sn, sc, fn, fc, hsc, hfc, by simpa using hax, ?_⟩
      rw [Bool.not_eq_true] at hax
      simp only [hax, Bool.false_eq_true, if_false, Option.some.injEq] at hif
      exact hif.symm
  · rintro ⟨sn, sc, fn, fc, hsc, hfc, hax, rfl⟩
    refine ⟨_, List.mem_map.mpr ⟨(sn, sc), hsc, rfl⟩, ?_⟩
    rw [List.mem_filterMap]
    exact ⟨(fn, fc), hfc, by simp [hax]⟩

theorem validate_ok_iff (m : MappingCfg) :
    validate_mapping_axes m = .ok () ↔ missing_entries m = [] := by
  unfold validate_mapping_axes
  by_cases h : missing_entries m = [] <;> simp [h]

/-! ### Claim C1 -/

/-- Claim C1 (counterexample): the validator sorts the joined
`"sensor.feature"` strings, which is not the same order as "lexicographic
by sensor then feature name": with sensors `ab` and `ab-c` both carrying
one axis-less feature, the code reports `ab-c.g` before `ab.f` (because
`-` orders before `.`), while sorting by sensor name first would put
`ab.f` first (`"ab" < "ab-c"`). -/
theorem c1_counterexample :
    validate_mapping_axes hyphen_mapping =
      .error "Mapping entries missing map_to.axis: ab-c.g, ab.f" ∧
    claim_error_message hyphen_mapping =
      "Mapping entries missing map_to.axis: ab.f, ab-c.g" ∧
    ("Mapping entries missing map_to.axis: ab-c.g, ab.f" : String) ≠
      "Mapping entries missing map_to.axis: ab.f, ab-c.g" :=
  ⟨rfl, rfl, by decide⟩

/-- Claim C1 (amended): `validate_mapping_axes` returns normally iff every
declared feature of every sensor block has a truthy `map_to.axis`;
otherwise it fails with a single error listing every offending
`sensor.feature` pair — joined first and then sorted lexicographically as
strings — and the check covers every sensor regardless of its `enabled`
flag (the characterisation quantifies over all sensors and never consults
`enabled`). -/
theorem c1_amended_validate (m : MappingCfg) :
    (validate_mapping_axes m = .ok () ↔
      ∀ sn sc fn fc, (sn, sc) ∈ m.sensors → (fn, fc) ∈ sc.features →
        axis_truthy fc = true) ∧
    (∀ s, validate_mapping_axes m = .error s →
      ∃ l, s = "Mapping entries missing map_to.axis: " ++ String.intercalate ", " l ∧
        List.Sorted (fun a b => str_le a b = true) l ∧
        ∀ p, p ∈ l ↔ ∃ sn sc fn fc, (sn, sc) ∈ m.sensors ∧ (fn, fc) ∈ sc.features ∧
          axis_truthy fc = false ∧ p = sn ++ "." ++ fn) := by
  constructor
  · rw [validate_ok_iff, List.eq_nil_iff_forall_not_mem]
    constructor
    · intro h sn sc fn fc hs hf
      by_contra hax
      rw [Bool.not_eq_true] at hax
      exact h _ ((mem_missing_entries m _).mpr ⟨sn, sc, fn, fc, hs, hf, hax, rfl⟩)
    · intro h p hp
      obtain ⟨sn, sc, fn, fc, hs, hf, hax, rfl⟩ := (mem_missing_entries m p).mp hp
      rw [h sn sc fn fc hs hf] at hax
      exact Bool.true_eq_false.mp hax
  · intro s hs
    refine ⟨sorted_strings (missing_entries m), ?_, ?_, ?_⟩
    · unfold validate_mapping_axes at hs
      by_cases h : missing_entries m = []
      · simp [h] at hs
      · simp only [h, if_false] at hs
        exact (Except.error.inj hs).symm
    · exact List.sorted_insertionSort _ _
    · intro p
      exact ((List.perm_insertionSort _ _).mem_iff).trans (mem_missing_entries m p)

/-- Witness for `c1_amended_validate` at the `hyphen_mapping` input. -/
theorem c1_amended_witness :
    ∃ l, ("Mapping entries missing map_to.axis: ab-c.g, ab.f" : String) =
        "Mapping entries missing map_to.axis: " ++ String.intercalate ", " l ∧
      List.Sorted (fun a b => str_le a b = true) l ∧
      ∀ p, p ∈ l ↔ ∃ sn sc fn fc, (sn, sc) ∈ hyphen_mapping.sensors ∧
        (fn, fc) ∈ sc.features ∧ axis_truthy fc = false ∧ p = sn ++ "." ++ fn :=
  (c1_amended_validate hyphen_mapping).2 _ rfl

/-! ### Claim C2 -/

/-- Claim C2: for a feature with a truthy axis whose transform resolves,
the value written under that axis is
`lerp lo hi (clamp01 (transform raw))` with `lerp lo hi t = lo + (hi - lo) * t`,
where `(lo, hi)` comes from `map_to.range` and defaults to `(0, 1)` when
the range is absent or not a two-element list; and the microphone-RMS
end-to-end fixture maps `mic_rms = 1` to `demo = 1` and `mic_rms = 0` to
`demo = 0`. -/
theorem c2_interpolation :
    (∀ sem sn fn fc frame axes c mt a tf c1, fc.map_to = some mt → mt.axis = some a →
      a ≠ "" → resolve_transform fc c = (.ok tf, c1) →
      apply_single_feature sem sn fn fc frame axes c =
        (.ok (set_key axes a (lerp (range_of mt).1 (range_of mt).2
          (clamp01 (eval_transform sem tf (resolve_feature_value sn fn fc frame))))), c1)) ∧
    (∀ lo hi t : ℚ, lerp lo hi t = lo + (hi - lo) * t) ∧
    (∀ mt : MapTo, mt.range = none → range_of mt = (0, 1)) ∧
    (∀ mt r, mt.range = some r → r.length ≠ 2 → range_of mt = (0, 1)) ∧
    (∀ sem, apply_mapping sem [("mic_rms", 1)] mic_demo_mapping [] =
      (.ok [("demo", 1)], [])) ∧
    (∀ sem, apply_mapping sem [("mic_rms", 0)] mic_demo_mapping [] =
      (.ok [("demo", 0)], [])) := by
  refine ⟨?_, fun _ _ _ => rfl, ?_, ?_, ?_, ?_⟩
  · intro sem sn fn fc frame axes c mt a tf c1 hmt ha hne hres
    simp only [apply_single_feature, hmt, Option.getD_some, ha, if_neg hne, hres]
  · intro mt h
    simp [range_of, h]
  · intro mt r h hlen
    rw [range_of, h]
    match r, hlen with
    | [], _ => rfl
    | [_], _ => rfl
    | _ :: _ :: _ :: _, _ => rfl
    | [_, _], hlen => exact absurd rfl hlen
  · intro sem
    simp [apply_mapping, process_sensors, process_generic_sensor, process_features,
      apply_single_feature, resolve_transform, resolve_feature_value, default_resolvers,
      eval_transform, clamp01, lerp, range_of, set_key, lookup_str, mic_demo_mapping,
      demo_rms_feature, transform_truthy]
  · intro sem
    simp [apply_mapping, process_sensors, process_generic_sensor, process_features,
      apply_single_feature, resolve_transform, resolve_feature_value, default_resolvers,
      eval_transform, clamp01, lerp, range_of, set_key, lookup_str, mic_demo_mapping,
      demo_rms_feature, transform_truthy]

/-- Witness for `c2_interpolation` at the `demo_rms_feature` fixture. -/
theorem c2_interpolation_witness :
    apply_single_feature (fun _ _ => 0) "mic" "rms" demo_rms_feature [("mic_rms", 1)] [] [] =
      (.ok (set_key [] "demo"
        (lerp (range_of { axis := some "demo", range := some [0, 1] }).1
          (range_of { axis := some "demo", range := some [0, 1] }).2
          (clamp01 (eval_transform (fun _ _ => 0) .identityT
            (resolve_feature_value "mic" "rms" demo_rms_feature [("mic_rms", 1)]))))), []) :=
  c2_interpolation.1 (fun _ _ => 0) "mic" "rms" demo_rms_feature [("mic_rms", 1)] [] []
    _ "demo" .identityT [] rfl rfl (by decide) rfl

/-! ### Claim C3 -/

/-- The fixture of claim C3's concrete example: `source = "primary|fallback"`
with an axis so the feature is well-formed. -/
def pipe_source_feature : FeatureCfg :=
  { source := some (.str "primary|fallback"), map_to := some { axis := some "demo" } }

/-- Claim C3: raw-value resolution follows the claimed strict priority
chain — `frame_key` override (missing key → 0), else the first
frame-present `source` candidate (falling through when none is present),
else the built-in `(sensor, feature)` resolver, else the compound
`sensor_feature` key, else the bare feature key, else 0 — and the
`source = "primary|fallback"` fixture against frame `{fallback: 0.8}`
resolves to `0.8`. -/
theorem c3_value_resolution :
    (∀ sn fn fc frame,
      resolve_feature_value sn fn fc frame = resolve_value_claim sn fn fc frame) ∧
    resolve_feature_value "mic" "rms" pipe_source_feature [("fallback", 0.8)] = 0.8 := by
  constructor
  · intro sn fn fc frame
    obtain ⟨fk, src, tr, mtt⟩ := fc
    simp only [resolve_feature_value, resolve_value_claim, claim_source_hit,
      claim_builtin_chain, str_opt_truthy]
    cases fk with
    | some k =>
      by_cases hk : k = ""
      case neg => simp [hk]
      · subst hk
        simp only [ne_eq, not_true_eq_false, decide_False, Bool.false_eq_true, if_false,
          if_true, Option.getD_some]
        cases src with
        | none => rfl
        | some sf =>
          cases sf with
          | str s =>
            by_cases hs : s = "" <;>
              cases hfp : first_present (source_candidates s) frame <;>
                simp [hs, hfp]
          | list xs => cases hfp : first_present xs frame <;> simp [hfp]
    | none =>
      simp only [Option.getD_none]
      cases src with
      | none => rfl
      | some sf =>
        cases sf with
        | str s =>
          by_cases hs : s = "" <;>
            cases hfp : first_present (source_candidates s) frame <;>
              simp [hs, hfp]
        | list xs => cases hfp : first_present xs frame <;> simp [hfp]
  · rfl

/-! ### Resolution-outcome helper lemmas -/

theorem resolve_eq_of_falsy (fc : FeatureCfg) (c : Cache)
    (h : transform_truthy fc.transform = false) :
    resolve_transform fc c = (.ok .identityT, c) := by
  simp [resolve_transform, h]

theorem resolve_eq_of_callable (fc : FeatureCfg) (c : Cache) (f : ℚ → ℚ)
    (h : fc.transform = .callable f) :
    resolve_transform fc c = (.ok (.callable f), c) := by
  simp [resolve_transform, h, transform_truthy]

theorem resolve_eq_of_cached (fc : FeatureCfg) (c : Cache) (s : String)
    (hts : fc.transform = .str s) (hs : s ≠ "") (cached : TransformFn)
    (hcache : lookup_str c s = some cached) :
    resolve_transform fc c = (.ok cached, c) := by
  simp [resolve_transform, hts, transform_truthy, hs, hcache]

theorem resolve_eq_of_parse_error (fc : FeatureCfg) (c : Cache) (s : String)
    (hts : fc.transform = .str s) (hs : s ≠ "")
    (hcache : lookup_str c s = none) (e : TErr)
    (hparse : parse_transform_spec s = .error e) :
    resolve_transform fc c = (.error e, c) := by
  simp [resolve_transform, hts, transform_truthy, hs, hcache, hparse]

theorem resolve_eq_of_unknown (fc : FeatureCfg) (c : Cache) (s : String)
    (hts : fc.transform = .str s) (hs : s ≠ "")
    (hcache : lookup_str c s = none)
    (name : String) (args : List Lit) (kwargs : List (String × Lit))
    (hparse : parse_transform_spec s = .ok (name, args, kwargs))
    (hfac : apply_factory name args kwargs = none) :
    resolve_transform fc c = (.error (.unknownTransform name fc), c) := by
  simp [resolve_transform, hts, transform_truthy, hs, hcache, hparse, hfac]

theorem resolve_eq_of_construction_error (fc : FeatureCfg) (c : Cache) (s : String)
    (hts : fc.transform = .str s) (hs : s ≠ "")
    (hcache : lookup_str c s = none)
    (name : String) (args : List Lit) (kwargs : List (String × Lit))
    (hparse : parse_transform_spec s = .ok (name, args, kwargs)) (e : TErr)
    (hfac : apply_factory name args kwargs = some (.error e)) :
    resolve_transform fc c = (.error e, c) := by
  simp [resolve_transform, hts, transform_truthy, hs, hcache, hparse, hfac]

theorem resolve_eq_of_build (fc : FeatureCfg) (c : Cache) (s : String)
    (hts : fc.transform = .str s) (hs : s ≠ "")
    (hcache : lookup_str c s = none)
    (name : String) (args : List Lit) (kwargs : List (String × Lit))
    (hparse : parse_transform_spec s = .ok (name, args, kwargs)) (tf : TransformFn)
    (hfac : apply_factory name args kwargs = some (.ok tf)) :
    resolve_transform fc c = (.ok tf, (s, tf) :: c) := by
  simp [resolve_transform, hts, transform_truthy, hs, hcache, hparse, hfac]

theorem resolve_eq_of_bad_type (fc : FeatureCfg) (c : Cache) (n : ℤ)
    (hts : fc.transform = .intVal n) (hn : n ≠ 0) :
    resolve_transform fc c = (.error (.typeNotStrOrCallable "int"), c) := by
  simp [resolve_transform, hts, transform_truthy, transform_type_name, hn]

/-! ### Claim C4 -/

/-- Names outside `_TRANSFORM_FACTORIES` have no factory. -/
theorem apply_factory_unregistered (name : String) (args : List Lit)
    (kwargs : List (String × Lit)) (h : name ∉ registry_names) :
    apply_factory name args kwargs = none := by
  unfold apply_factory
  split <;> first
    | rfl
    | (exfalso; apply h; simp_all [registry_names])

/-- Claim C4 (counterexample): an unknown transform name passes axis
validation untouched and only errors once `apply_mapping` — frame
processing — reaches the feature; no check before frame processing
surfaces it. -/
theorem c4_counterexample :
    validate_mapping_axes nope_mapping = .ok () ∧
    apply_mapping (fun _ _ => 0) [] nope_mapping [] =
      (.error (.unknownTransform "nope" nope_feature), []) :=
  ⟨rfl, rfl⟩

/-- Claim C4 (amended): transform resolution returns the identity when the
`transform` field is absent or the empty string, and a spec naming an
unregistered transform fails with an error naming the offending feature —
no default transform is substituted — but the failure happens at
resolution time, i.e. during the evaluation pass that first reaches the
feature, not before frame processing begins. -/
theorem c4_amended_resolution :
    (∀ fc c, (fc.transform = .absent ∨ fc.transform = .str "") →
      resolve_transform fc c = (.ok .identityT, c)) ∧
    (∀ fc c s name args kwargs, fc.transform = .str s →
      lookup_str c s = none →
      parse_transform_spec s = .ok (name, args, kwargs) →
      name ∉ registry_names →
      resolve_transform fc c = (.error (.unknownTransform name fc), c)) := by
  constructor
  · rintro fc c (h | h) <;> exact resolve_eq_of_falsy fc c (by simp [h, transform_truthy])
  · intro fc c s name args kwargs hts hcache hparse hreg
    have hs : s ≠ "" := by
      intro h
      rw [h] at hparse
      have : parse_transform_spec "" = Except.error .emptySpec := rfl
      rw [this] at hparse
      exact Except.noConfusion hparse
    exact resolve_eq_of_unknown fc c s hts hs hcache name args kwargs hparse
      (apply_factory_unregistered name args kwargs hreg)

/-- Witness for `c4_amended_resolution` at the `nope_feature` fixture. -/
theorem c4_amended_witness :
    resolve_transform nope_feature [] =
      (.error (.unknownTransform "nope" nope_feature), []) :=
  c4_amended_resolution.2 nope_feature [] "nope" "nope" [] [] rfl rfl rfl (by decide)

/-! ### Claim C10 -/

/-- A feature whose transform field holds a callable. -/
def add_one_feature : FeatureCfg := { transform := .callable fun x => x + 1 }

/-- A feature whose transform field holds a truthy non-callable
non-string value. -/
def int_transform_feature : FeatureCfg := { transform := .intVal 5 }

/-- Claim C10: a callable transform field is returned as-is — for every
cache state, without touching it — and a truthy value that is neither
callable nor a string fails with the `TypeError` carrying the value's
type name. -/
theorem c10_callable_bypass :
    (∀ fc c f, fc.transform = .callable f →
      resolve_transform fc c = (.ok (.callable f), c)) ∧
    (∀ fc c n, fc.transform = .intVal n → n ≠ 0 →
      resolve_transform fc c = (.error (.typeNotStrOrCallable "int"), c)) :=
  ⟨fun fc c f h => resolve_eq_of_callable fc c f h,
   fun fc c n h hn => resolve_eq_of_bad_type fc c n h hn⟩

/-- Witness for `c10_callable_bypass` at concrete fixtures. -/
theorem c10_callable_bypass_witness :
    resolve_transform add_one_feature [] = (.ok (.callable fun x => x + 1), []) ∧
    resolve_transform int_transform_feature [] =
      (.error (.typeNotStrOrCallable "int"), []) :=
  ⟨c10_callable_bypass.1 add_one_feature [] _ rfl,
   c10_callable_bypass.2 int_transform_feature [] 5 rfl (by decide)⟩

/-! ### Claim C6 -/

/-- Claim C6: transform resolution is memoized by the exact spec string —
once a resolution has succeeded, resolving the same feature config
against the resulting cache returns the very same function and leaves the
cache unchanged, the constructed function sits in the cache under the
literal spec string — and the error path is repeatable because a failed
resolution returns the cache untouched (resolution is a pure function of
the config and the cache, so the same error recurs). -/
theorem c6_cache_memoization :
    (∀ fc c tf c1, resolve_transform fc c = (.ok tf, c1) →
      resolve_transform fc c1 = (.ok tf, c1)) ∧
    (∀ fc c s tf c1, fc.transform = .str s → s ≠ "" →
      resolve_transform fc c = (.ok tf, c1) → lookup_str c1 s = some tf) ∧
    (∀ fc c e c1, resolve_transform fc c = (.error e, c1) → c1 = c) := by
  have hstep : ∀ fc c s, fc.transform = .str s → s ≠ "" →
      ∀ tf c1, resolve_transform fc c = (.ok tf, c1) →
        resolve_transform fc c1 = (.ok tf, c1) ∧ lookup_str c1 s = some tf := by
    intro fc c s hts hs tf c1 hres
    cases hcache : lookup_str c s with
    | some cached =>
      rw [resolve_eq_of_cached fc c s hts hs cached hcache] at hres
      simp only [Prod.mk.injEq, Except.ok.injEq] at hres
      obtain ⟨rfl, rfl⟩ := hres
      exact ⟨resolve_eq_of_cached fc c s hts hs cached hcache, hcache⟩
    | none =>
      cases hparse : parse_transform_spec s with
      | error e =>
        rw [resolve_eq_of_parse_error fc c s hts hs hcache e hparse] at hres
        simp at hres
      | ok triple =>
        obtain ⟨name, args, kwargs⟩ := triple
        cases hfac : apply_factory name args kwargs with
        | none =>
          rw [resolve_eq_of_unknown fc c s hts hs hcache name args kwargs hparse hfac] at hres
          simp at hres
        | some r =>
          cases r with
          | error e =>
            rw [resolve_eq_of_construction_error fc c s hts hs hcache
              name args kwargs hparse e hfac] at hres
            simp at hres
          | ok tf0 =>
            rw [resolve_eq_of_build fc c s hts hs hcache name args kwargs hparse tf0 hfac] at hres
            simp only [Prod.mk.injEq, Except.ok.injEq] at hres
            obtain ⟨rfl, rfl⟩ := hres
            have hlook : lookup_str ((s, tf0) :: c) s = some tf0 := by simp [lookup_str]
            exact ⟨resolve_eq_of_cached fc ((s, tf0) :: c) s hts hs tf0 hlook, hlook⟩
  refine ⟨?_, ?_, ?_⟩
  · intro fc c tf c1 hres
    by_cases htr : transform_truthy fc.transform = true
    · cases hts : fc.transform with
      | absent => rw [hts] at htr; exact absurd htr (by simp [transform_truthy])
      | callable f =>
        rw [resolve_eq_of_callable fc c f hts] at hres
        simp only [Prod.mk.injEq, Except.ok.injEq] at hres
        obtain ⟨rfl, rfl⟩ := hres
        exact resolve_eq_of_callable fc c f hts
      | intVal n =>
        have hn : n ≠ 0 := by
          intro h; rw [hts, h] at htr; exact absurd htr (by simp [transform_truthy])
        rw [resolve_eq_of_bad_type fc c n hts hn] at hres
        simp at hres
      | str s =>
        have hs : s ≠ "" := by
          intro h; rw [hts, h] at htr; exact absurd htr (by simp [transform_truthy])
        exact (hstep fc c s hts hs tf c1 hres).1
    · rw [Bool.not_eq_true] at htr
      rw [resolve_eq_of_falsy fc c htr] at hres
      simp only [Prod.mk.injEq, Except.ok.injEq] at hres
      obtain ⟨rfl, rfl⟩ := hres
      exact resolve_eq_of_falsy fc c htr
  · intro fc c s tf c1 hts hs hres
    exact (hstep fc c s hts hs tf c1 hres).2
  · intro fc c e c1 hres
    by_cases htr : transform_truthy fc.transform = true
    · cases hts : fc.transform with
      | absent => rw [hts] at htr; exact absurd htr (by simp [transform_truthy])
      | callable f =>
        rw [resolve_eq_of_callable fc c f hts] at hres
        simp at hres
      | intVal n =>
        have hn : n ≠ 0 := by
          intro h; rw [hts, h] at htr; exact absurd htr (by simp [transform_truthy])
        rw [resolve_eq_of_bad_type fc c n hts hn] at hres
        simp only [Prod.mk.injEq, TErr.typeNotStrOrCallable.injEq] at hres
        exact hres.2.symm
      | str s =>
        have hs : s ≠ "" := by
          intro h; rw [hts, h] at htr; exact absurd htr (by simp [transform_truthy])
        cases hcache : lookup_str c s with
        | some cached =>
          rw [resolve_eq_of_cached fc c s hts hs cached hcache] at hres
          simp at hres
        | none =>
          cases hparse : parse_transform_spec s with
          | error e0 =>
            rw [resolve_eq_of_parse_error fc c s hts hs hcache e0 hparse] at hres
            simp only [Prod.mk.injEq] at hres
            exact hres.2.symm
          | ok triple =>
            obtain ⟨name, args, kwargs⟩ := triple
            cases hfac : apply_factory name args kwargs with
            | none =>
              rw [resolve_eq_of_unknown fc c s hts hs hcache name args kwargs hparse hfac] at hres
              simp only [Prod.mk.injEq] at hres
              exact hres.2.symm
            | some r =>
              cases r with
              | error e0 =>
                rw [resolve_eq_of_construction_error fc c s hts hs hcache
                  name args kwargs hparse e0 hfac] at hres
                simp only [Prod.mk.injEq] at hres
                exact hres.2.symm
              | ok tf0 =>
                rw [resolve_eq_of_build fc c s hts hs hcache
                  name args kwargs hparse tf0 hfac] at hres
                simp at hres
    · rw [Bool.not_eq_true] at htr
      rw [resolve_eq_of_falsy fc c htr] at hres
      simp at hres

/-- A feature whose transform is the spec string `clamp01`. -/
def clamp01_spec_feature : FeatureCfg := { transform := .str "clamp01" }

/-- Witness for `c6_cache_memoization`: after resolving `"clamp01"` once,
a second resolution returns the cached function and leaves the cache
unchanged, and the function is cached under the literal string. -/
theorem c6_cache_memoization_witness :
    resolve_transform clamp01_spec_feature [("clamp01", .clamp01T)] =
      (.ok .clamp01T, [("clamp01", .clamp01T)]) ∧
    lookup_str [(("clamp01" : String), TransformFn.clamp01T)] "clamp01" = some .clamp01T :=
  ⟨c6_cache_memoization.1 clamp01_spec_feature [] .clamp01T [("clamp01", .clamp01T)] rfl,
   c6_cache_memoization.2.1 clamp01_spec_feature [] "clamp01" .clamp01T
     [("clamp01", .clamp01T)] rfl (by decide) rfl⟩

/-! ### Claim C5 -/

/-- Claim C5 (divergence): on a `motion` block with no `enabled` key, the
shared module's `apply_mapping` (mapping.py line 345: `get("enabled",
False)` for every sensor) skips the block and yields no axes, while the
host app's inline `apply_mapping` (app.py line 243: `motion.get("enabled",
True)`) evaluates the burst feature and writes the axis. -/
theorem c5_motion_default_divergence :
    apply_mapping (fun _ _ => 0) [("motion", 1)] motion_default_mapping [] =
      (.ok [], []) ∧
    app_apply_mapping [("motion", 1)] motion_default_mapping =
      .ok [("env_attack_ms", 1)] := by
  refine ⟨rfl, ?_⟩
  simp [app_apply_mapping, app_feature, lookup_str, motion_default_mapping,
    clamp01, lerp, set_key]

/-! ### Claims C8 and C9: which features can write which keys -/

/-- The axis a feature would write to, if any: the truthy `map_to.axis`. -/
def feature_axis (fc : FeatureCfg) : Option String :=
  match (fc.map_to.getD {}).axis with
  | none => none
  | some a => if a = "" then none else some a

theorem feature_axis_eq_some (fc : FeatureCfg) (k : String) :
    feature_axis fc = some k ↔
      ∃ mt, fc.map_to = some mt ∧ mt.axis = some k ∧ k ≠ "" := by
  constructor
  · intro h
    unfold feature_axis at h
    cases hmt : fc.map_to with
    | none => rw [hmt] at h; simp at h
    | some mt =>
      rw [hmt] at h
      simp only [Option.getD_some] at h
      cases hax : mt.axis with
      | none => rw [hax] at h; simp at h
      | some a =>
        rw [hax] at h
        by_cases ha : a = ""
        · simp [ha] at h
        · simp [ha] at h
          subst h
          exact ⟨mt, rfl, hax, ha⟩
  · rintro ⟨mt, hmt, hax, hk⟩
    unfold feature_axis
    rw [hmt]
    simp only [Option.getD_some, hax]
    simp [hk]

/-- The write equation for a feature with a truthy axis and a transform
that resolves (mapping.py lines 293-303). -/
theorem apply_single_feature_write (sem : BuiltTF → ℚ → ℚ) (sn fn : String)
    (fc : FeatureCfg) (frame : Frame) (axes : AxisMap) (c : Cache)
    (mt : MapTo) (a : String) (tf : TransformFn) (c1 : Cache)
    (hmt : fc.map_to = some mt) (hax : mt.axis = some a) (ha : a ≠ "")
    (hres : resolve_transform fc c = (.ok tf, c1)) :
    apply_single_feature sem sn fn fc frame axes c =
      (.ok (set_key axes a (lerp (range_of mt).1 (range_of mt).2
        (clamp01 (eval_transform sem tf (resolve_feature_value sn fn fc frame))))), c1) := by
  simp only [apply_single_feature, hmt, Option.getD_some, hax, if_neg ha, hres]

/-- The propagation equation when the transform fails to resolve. -/
theorem apply_single_feature_error (sem : BuiltTF → ℚ → ℚ) (sn fn : String)
    (fc : FeatureCfg) (frame : Frame) (axes : AxisMap) (c : Cache)
    (mt : MapTo) (a : String) (e : TErr) (c1 : Cache)
    (hmt : fc.map_to = some mt) (hax : mt.axis = some a) (ha : a ≠ "")
    (hres : resolve_transform fc c = (.error e, c1)) :
    apply_single_feature sem sn fn fc frame axes c = (.error e, c1) := by
  simp only [apply_single_feature, hmt, Option.getD_some, hax, if_neg ha, hres]

/-- A feature with no (truthy) axis writes nothing, raises nothing, and
leaves the cache alone (mapping.py lines 288-291 return before the
transform is even resolved). -/
theorem apply_single_feature_skip (sem : BuiltTF → ℚ → ℚ) (sn fn : String)
    (fc : FeatureCfg) (frame : Frame) (axes : AxisMap) (c : Cache)
    (h : feature_axis fc = none) :
    apply_single_feature sem sn fn fc frame axes c = (.ok axes, c) := by
  unfold feature_axis at h
  cases hmt : fc.map_to with
  | none => simp [apply_single_feature, hmt]
  | some mt =>
    rw [hmt] at h
    simp only [Option.getD_some] at h
    cases hax : mt.axis with
    | none => simp [apply_single_feature, hmt, hax]
    | some a =>
      rw [hax] at h
      by_cases ha : a = ""
      · simp [apply_single_feature, hmt, hax, ha]
      · simp [ha] at h

theorem keys_set_key (axes : AxisMap) (k : String) (v : ℚ) :
    ∀ k', k' ∈ keys_of (set_key axes k v) → k' = k ∨ k' ∈ keys_of axes := by
  induction axes with
  | nil =>
    intro k' h
    simp [set_key, keys_of] at h
    exact Or.inl h
  | cons hd tl ih =>
    obtain ⟨hk, hv⟩ := hd
    intro k' h
    simp only [set_key] at h
    by_cases he : hk = k
    · rw [if_pos he] at h
      simp only [keys_of, List.map_cons, List.mem_cons] at h ⊢
      rcases h with h | h
      · exact Or.inl (he ▸ h)
      · exact Or.inr (Or.inr h)
    · rw [if_neg he] at h
      simp only [keys_of, List.map_cons, List.mem_cons] at h ⊢
      rcases h with h | h
      · exact Or.inr (Or.inl h)
      · rcases ih k' h with h' | h'
        · exact Or.inl h'
        · exact Or.inr (Or.inr h')

theorem apply_single_feature_keys (sem : BuiltTF → ℚ → ℚ) (sn fn : String)
    (fc : FeatureCfg) (frame : Frame) (axes : AxisMap) (c : Cache)
    (axes1 : AxisMap) (c1 : Cache)
    (h : apply_single_feature sem sn fn fc frame axes c = (.ok axes1, c1)) :
    ∀ k, k ∈ keys_of axes1 → k ∈ keys_of axes ∨ feature_axis fc = some k := by
  cases hfa : feature_axis fc with
  | none =>
    rw [apply_single_feature_skip sem sn fn fc frame axes c hfa] at h
    simp only [Prod.mk.injEq, Except.ok.injEq] at h
    obtain ⟨rfl, rfl⟩ := h
    exact fun k hk => Or.inl hk
  | some a =>
    obtain ⟨mt, hmt, hax, ha⟩ := (feature_axis_eq_some fc a).mp hfa
    cases hres : resolve_transform fc c with
    | mk r c2 =>
      cases r with
      | error e =>
        rw [apply_single_feature_error sem sn fn fc frame axes c mt a e c2
          hmt hax ha hres] at h
        simp at h
      | ok tf =>
        rw [apply_single_feature_write sem sn fn fc frame axes c mt a tf c2
          hmt hax ha hres] at h
        simp only [Prod.mk.injEq, Except.ok.injEq] at h
        obtain ⟨rfl, rfl⟩ := h
        intro k hk
        rcases keys_set_key axes a _ k hk with h' | h'
        · subst h'
          exact Or.inr rfl
        · exact Or.inl h'

theorem process_features_keys (sem : BuiltTF → ℚ → ℚ) (sn : String) (frame : Frame) :
    ∀ fs axes c axes1 c1,
      process_features sem sn frame fs axes c = (.ok axes1, c1) →
      ∀ k, k ∈ keys_of axes1 →
        k ∈ keys_of axes ∨ ∃ fn fc, (fn, fc) ∈ fs ∧ feature_axis fc = some k := by
  intro fs
  induction fs with
  | nil =>
    intro axes c axes1 c1 h k hk
    simp only [process_features, Prod.mk.injEq, Except.ok.injEq] at h
    obtain ⟨rfl, rfl⟩ := h
    exact Or.inl hk
  | cons hd tl ih =>
    obtain ⟨fn0, fc0⟩ := hd
    intro axes c axes1 c1 h k hk
    simp only [process_features] at h
    cases hsf : apply_single_feature sem sn fn0 fc0 frame axes c with
    | mk r c2 =>
      rw [hsf] at h
      cases r with
      | error e => simp at h
      | ok axes2 =>
        rcases ih axes2 c2 axes1 c1 h k hk with h' | ⟨fn1, fc1, hmem, hax⟩
        · rcases apply_single_feature_keys sem sn fn0 fc0 frame axes c axes2 c2 hsf k h'
            with h'' | h''
          · exact Or.inl h''
          · exact Or.inr ⟨fn0, fc0, List.mem_cons_self _ _, h''⟩
        · exact Or.inr ⟨fn1, fc1, List.mem_cons_of_mem _ hmem, hax⟩

theorem process_sensors_keys (sem : BuiltTF → ℚ → ℚ) (frame : Frame) :
    ∀ ss axes c axes1 c1,
      process_sensors sem frame ss axes c = (.ok axes1, c1) →
      ∀ k, k ∈ keys_of axes1 →
        k ∈ keys_of axes ∨ ∃ sn sc, (sn, sc) ∈ ss ∧ sc.enabled.getD false = true ∧
          ∃ fn fc, (fn, fc) ∈ sc.features ∧ feature_axis fc = some k := by
  intro ss
  induction ss with
  | nil =>
    intro axes c axes1 c1 h k hk
    simp only [process_sensors, Prod.mk.injEq, Except.ok.injEq] at h
    obtain ⟨rfl, rfl⟩ := h
    exact Or.inl hk
  | cons hd tl ih =>
    obtain ⟨sn0, sc0⟩ := hd
    intro axes c axes1 c1 h k hk
    simp only [process_sensors] at h
    by_cases hen : sc0.enabled.getD false = false
    · rw [if_pos hen] at h
      rcases ih axes c axes1 c1 h k hk with h' | ⟨sn1, sc1, hmem, rest⟩
      · exact Or.inl h'
      · exact Or.inr ⟨sn1, sc1, List.mem_cons_of_mem _ hmem, rest⟩
    · rw [if_neg hen] at h
      have hen' : sc0.enabled.getD false = true := by
        cases hv : sc0.enabled.getD false
        · exact absurd hv hen
        · rfl
      cases hps : process_generic_sensor sem sn0 frame sc0 axes c with
      | mk r c2 =>
        rw [hps] at h
        cases r with
        | error e => simp at h
        | ok axes2 =>
          rcases ih axes2 c2 axes1 c1 h k hk with h' | ⟨sn1, sc1, hmem, rest⟩
          · rcases process_features_keys sem sn0 frame sc0.features axes c axes2 c2 hps k h'
              with h'' | ⟨fn1, fc1, hmem1, hax1⟩
            · exact Or.inl h''
            · exact Or.inr ⟨sn0, sc0, List.mem_cons_self _ _, hen', fn1, fc1, hmem1, hax1⟩
          · exact Or.inr ⟨sn1, sc1, List.mem_cons_of_mem _ hmem, rest⟩

/-- Claim C8: every key of a successful evaluation pass is the truthy
`map_to.axis` of some feature of some enabled sensor block — so disabled
(or default-disabled) sensors contribute no axis keys, for any frame. -/
theorem c8_enabled_only_keys (sem : BuiltTF → ℚ → ℚ) (frame : Frame)
    (m : MappingCfg) (c : Cache) (axes1 : AxisMap) (c1 : Cache)
    (h : apply_mapping sem frame m c = (.ok axes1, c1)) :
    ∀ k, k ∈ keys_of axes1 →
      ∃ sn sc, (sn, sc) ∈ m.sensors ∧ sc.enabled.getD false = true ∧
        ∃ fn fc mt, (fn, fc) ∈ sc.features ∧ fc.map_to = some mt ∧
          mt.axis = some k ∧ k ≠ "" := by
  intro k hk
  rcases process_sensors_keys sem frame m.sensors [] c axes1 c1 h k hk
    with h' | ⟨sn, sc, hmem, hen, fn, fc, hf, hax⟩
  · simp [keys_of] at h'
  · obtain ⟨mt, hmt, haxis, hne⟩ := (feature_axis_eq_some fc k).mp hax
    exact ⟨sn, sc, hmem, hen, fn, fc, mt, hf, hmt, haxis, hne⟩

/-- Witness for `c8_enabled_only_keys` at the mic/demo fixture. -/
theorem c8_enabled_only_keys_witness :
    ∃ sn sc, (sn, sc) ∈ mic_demo_mapping.sensors ∧ sc.enabled.getD false = true ∧
      ∃ fn fc mt, (fn, fc) ∈ sc.features ∧ fc.map_to = some mt ∧
        mt.axis = some "demo" ∧ "demo" ≠ "" :=
  c8_enabled_only_keys (fun _ _ => 0) [("mic_rms", 1)] mic_demo_mapping []
    [("demo", 1)] []
    (by simp [apply_mapping, process_sensors, process_generic_sensor, process_features,
      apply_single_feature, resolve_transform, resolve_feature_value, default_resolvers,
      eval_transform, clamp01, lerp, range_of, set_key, lookup_str, mic_demo_mapping,
      demo_rms_feature, transform_truthy])
    "demo" (by simp [keys_of])

/-- Claim C9: evaluation is total at the missing-axis edge — a feature of
an enabled sensor whose `map_to.axis` is absent or empty is silently
skipped (no output key, no error, cache untouched), and removing such a
feature from a sensor's feature list leaves the whole feature pass
unchanged. -/
theorem c9_missing_axis_skip :
    (∀ sem sn fn fc frame axes c, feature_axis fc = none →
      apply_single_feature sem sn fn fc frame axes c = (.ok axes, c)) ∧
    (∀ sem sn frame fs1 fs2 fn fc axes c, feature_axis fc = none →
      process_features sem sn frame (fs1 ++ (fn, fc) :: fs2) axes c =
        process_features sem sn frame (fs1 ++ fs2) axes c) := by
  refine ⟨fun sem sn fn fc frame axes c h =>
    apply_single_feature_skip sem sn fn fc frame axes c h, ?_⟩
  intro sem sn frame fs1 fs2 fn fc axes c h
  induction fs1 generalizing axes c with
  | nil =>
    simp only [List.nil_append, process_features,
      apply_single_feature_skip sem sn fn fc frame axes c h]
  | cons hd tl ih =>
    obtain ⟨fn0, fc0⟩ := hd
    simp only [List.cons_append, process_features]
    cases hsf : apply_single_feature sem sn fn0 fc0 frame axes c with
    | mk r c2 =>
      cases r with
      | error e => rfl
      | ok axes2 => exact ih axes2 c2

/-- Witness for `c9_missing_axis_skip`: the default (axis-less) feature is
skipped without error. -/
theorem c9_missing_axis_skip_witness :
    apply_single_feature (fun _ _ => 0) "mic" "rms" {} [("mic_rms", 1)] [] [] =
      (.ok [], []) :=
  c9_missing_axis_skip.1 (fun _ _ => 0) "mic" "rms" {} [("mic_rms", 1)] [] [] rfl

/-! ### Claim C7 -/

theorem clamp01R_eq_self (x : ℝ) (h0 : 0 ≤ x) (h1 : x ≤ 1) : clamp01R x = x := by
  unfold clamp01R
  rw [if_neg (not_lt.mpr h0), if_neg (not_lt.mpr h1)]

/-- For a nonempty list of positive centers and positive `k`, the curve is
exactly the clamped arithmetic mean of the per-center scores. -/
theorem inverse_exp_mean_formula (cs : List ℝ) (k x : ℝ) (hne : cs ≠ [])
    (hpos : ∀ c ∈ cs, 0 < c) (hk : 0 < k) :
    inverse_exp cs k x = clamp01R ((cs.map fun c =>
      if x ≥ c then 0 else 1 - Real.exp (-k * ((c - x) / c))).sum / (cs.length : ℝ)) := by
  obtain ⟨a, l, rfl⟩ : ∃ a l, cs = a :: l := by
    cases cs with
    | nil => exact absurd rfl hne
    | cons a l => exact ⟨a, l, rfl⟩
  simp only [inverse_exp]
  have hfil : (a :: l).filter (fun c => decide (0 < c)) = a :: l :=
    List.filter_eq_self.mpr fun c hc => by simpa using hpos c hc
  rw [hfil, if_neg (List.cons_ne_nil a l), if_neg (not_le.mpr hk), List.length_map]

/-- Claim C7 (counterexample): `centers` is a required keyword of the
`inverse_exp` factory, so a spec that omits it is a construction error —
absent centers are NOT treated as `[1.0]` (only an empty/non-positive
list is). -/
theorem c7_counterexample :
    resolve_transform { transform := .str "inverse_exp()" } [] =
      (.error (.constructionError "inverse_exp"), []) := rfl

/-- Claim C7 (amended): `inverse_exp` treats an empty centers list as
`[1.0]` and floors `k` at the positive value `1.0` when `k ≤ 0`; for a
nonempty list of positive centers and positive `k` the result at every
input is the clamped arithmetic mean of the per-center scores (`0` at or
beyond a center, else `1 − exp(−k·(center−x)/center)`); and with
`centers = [50, 120]`, `k = 1.2` the values at inputs 30, 80, 160 strictly
decrease, with the value at 160 equal to `0`.  (Constructing the
transform *without* a centers argument is an error, per the
counterexample.) -/
theorem c7_amended_inverse_exp :
    (∀ k x : ℝ, inverse_exp [] k x = inverse_exp [1] k x) ∧
    (∀ (cs : List ℝ) (k x : ℝ), k ≤ 0 → inverse_exp cs k x = inverse_exp cs 1 x) ∧
    (∀ (cs : List ℝ) (k x : ℝ), cs ≠ [] → (∀ c ∈ cs, 0 < c) → 0 < k →
      inverse_exp cs k x = clamp01R ((cs.map fun c =>
        if x ≥ c then 0 else 1 - Real.exp (-k * ((c - x) / c))).sum / (cs.length : ℝ))) ∧
    (inverse_exp [50, 120] 1.2 30 > inverse_exp [50, 120] 1.2 80 ∧
     inverse_exp [50, 120] 1.2 80 > inverse_exp [50, 120] 1.2 160 ∧
     inverse_exp [50, 120] 1.2 160 = 0) := by
  have hpos5012 : ∀ c ∈ ([50, 120] : List ℝ), 0 < c := by
    intro c hc
    simp at hc
    rcases hc with rfl | rfl <;> norm_num
  have e160 : inverse_exp [50, 120] 1.2 160 = 0 := by
    rw [inverse_exp_mean_formula [50, 120] 1.2 160 (by simp) hpos5012 (by norm_num)]
    norm_num [clamp01R]
  have e80 : inverse_exp [50, 120] 1.2 80 = (1 - Real.exp (-(2/5 : ℝ))) / 2 := by
    rw [inverse_exp_mean_formula [50, 120] 1.2 80 (by simp) hpos5012 (by norm_num)]
    have harg : -(1.2 : ℝ) * (((120 : ℝ) - 80) / 120) = -(2/5 : ℝ) := by norm_num
    norm_num [harg]
    have hE1 : Real.exp (-(2/5 : ℝ)) < 1 := Real.exp_lt_one_iff.mpr (by norm_num)
    have hE0 : (0:ℝ) < Real.exp (-(2/5 : ℝ)) := Real.exp_pos _
    exact clamp01R_eq_self _ (by linarith) (by linarith)
  have e30 : inverse_exp [50, 120] 1.2 30 =
      (1 - Real.exp (-(12/25 : ℝ)) + (1 - Real.exp (-(9/10 : ℝ)))) / 2 := by
    rw [inverse_exp_mean_formula [50, 120] 1.2 30 (by simp) hpos5012 (by norm_num)]
    have ha1 : -(1.2 : ℝ) * (((50 : ℝ) - 30) / 50) = -(12/25 : ℝ) := by norm_num
    have ha2 : -(1.2 : ℝ) * (((120 : ℝ) - 30) / 120) = -(9/10 : ℝ) := by norm_num
    norm_num [ha1, ha2]
    have h1 : Real.exp (-(12/25 : ℝ)) < 1 := Real.exp_lt_one_iff.mpr (by norm_num)
    have h2 : Real.exp (-(9/10 : ℝ)) < 1 := Real.exp_lt_one_iff.mpr (by norm_num)
    have h3 : (0:ℝ) < Real.exp (-(12/25 : ℝ)) := Real.exp_pos _
    have h4 : (0:ℝ) < Real.exp (-(9/10 : ℝ)) := Real.exp_pos _
    rw [clamp01R_eq_self _ (by linarith) (by linarith)]
  refine ⟨?_, ?_, inverse_exp_mean_formula, ?_, ?_, e160⟩
  · intro k x
    norm_num [inverse_exp, List.filter]
  · intro cs k x hk
    norm_num [inverse_exp, hk]
  · rw [e30, e80]
    have h1 : Real.exp (-(12/25 : ℝ)) < 1 := Real.exp_lt_one_iff.mpr (by norm_num)
    have h2 : Real.exp (-(9/10 : ℝ)) < Real.exp (-(2/5 : ℝ)) :=
      Real.exp_lt_exp.mpr (by norm_num)
    linarith
  · rw [e80, e160]
    have hE1 : Real.exp (-(2/5 : ℝ)) < 1 := Real.exp_lt_one_iff.mpr (by norm_num)
    linarith

/-- Witness for `c7_amended_inverse_exp` at concrete parameters. -/
theorem c7_amended_witness :
    inverse_exp [5] (-1) 2 = inverse_exp [5] 1 2 ∧
    inverse_exp [1] 1 2 = clamp01R ((([1] : List ℝ).map fun c =>
      if (2:ℝ) ≥ c then 0 else 1 - Real.exp (-1 * ((c - 2) / c))).sum /
        ((([1] : List ℝ).length : ℕ) : ℝ)) :=
  ⟨c7_amended_inverse_exp.2.1 [5] (-1) 2 (neg_nonpos.mpr zero_le_one),
   c7_amended_inverse_exp.2.2.1 [1] 1 2 (by simp) (by simp) zero_lt_one⟩

end RoomLens
